import Mathlib

/-!
# Shallow embedding of the comet-multi availability / caching / ranking core

This file embeds, as executable Lean definitions, the code of:

* `comet/services/debrid.py` — `MultiDebridService.get_and_cache_availability_all`
  and `MultiDebridService.check_existing_availability_all` (multi-provider
  availability merge);
* `comet/api/endpoints/playback.py` — the download-link cache lookup, the
  TTL check, and the cache-then-provider control flow of `playback_with_service`;
* `comet/services/ranking.py` — `check_required_languages` and `rank_worker`;
* `comet/core/config_validation.py` — `normalize_debrid_config` and `config_check`.

External collaborators (the network calls `retrieve_debrid_availability`,
`get_cached_availability`, `generate_download_link`, the RTN library calls
`check_fetch` / `get_rank` / `Torrent` / `sort_torrents`, and the pydantic
`ConfigModel` validation) are passed in as explicit inputs or oracle
functions, following the spec's treatment of them as opaque capabilities.
Theorems about each embedded operation follow the definitions.
-/

/-- Substring test on character lists: `containsSub hay needle` is true iff
`needle` occurs contiguously inside `hay`.  Models the Python
`needle in hay` test on strings. -/
def containsSub (hay needle : List Char) : Bool :=
  match hay with
  | [] => needle.isEmpty
  | _ :: t => needle.isPrefixOf hay || containsSub t needle

/-- String-level substring test, models Python `needle in hay`. -/
def strContains (hay needle : String) : Bool :=
  containsSub hay.toList needle.toList

/-- ASCII lowercasing, models Python `str.lower()` on the ASCII inputs the
code handles (service names, language names, release titles). -/
def lowerStr (s : String) : String :=
  String.mk (s.toList.map Char.toLower)

/-- Parsed metadata attached to a torrent or to a provider record
(the fields of `RTN.ParsedData` that the embedded code reads):
quality tier, resolution string, and detected languages. -/
structure Parsed where
  quality : Option String
  resolution : String
  languages : List String
  deriving DecidableEq, Repr

/-- One candidate torrent, the value of one entry of the `torrents` dict
(the fields that the merge and ranking code reads or writes). -/
structure Torrent where
  title : String
  size : Int
  fileIndex : Option Int
  parsed : Parsed
  cached : Bool
  cached_services : List String
  deriving DecidableEq, Repr

/-- One availability record returned by a provider
(`retrieve_debrid_availability` element as consumed by the merge loop). -/
structure AvailFile where
  info_hash : String
  season : Option Int
  episode : Option Int
  parsed : Option Parsed
  index : Option Int
  title : Option String
  size : Option Int
  deriving DecidableEq, Repr

/-- The `torrents` dict is embedded as an association list from info hash to
`Torrent`; Python dict keys are unique and iteration order is preserved. -/
abbrev TorrentMap := List (String × Torrent)

/-- `torrents[info_hash]` read access (first entry with the key). -/
def lookupAssoc (ts : TorrentMap) (k : String) : Option Torrent :=
  (ts.find? fun p => decide (p.1 = k)).map (·.2)

/-- In-place mutation `torrents[info_hash] = f torrents[info_hash]`:
entries with key `k` are rewritten, everything else is unchanged.  When `k`
is absent this is the identity, matching the code's
`if info_hash not in torrents: continue` guard. -/
def updateAssoc (ts : TorrentMap) (k : String) (f : Torrent → Torrent) : TorrentMap :=
  ts.map fun p => if p.1 = k then (p.1, f p.2) else p

/-- The enrichment tail of the merge loop body
(`debrid.py` lines 227–240): replace `parsed` (keeping the existing quality
tier when the record lacks one), then overwrite `fileIndex`, `title`, `size`
whenever the record's value is non-null. -/
def enrichFields (file : AvailFile) (t : Torrent) : Torrent :=
  let t3 : Torrent :=
    match file.parsed with
    | none => t
    | some dp =>
        let dp2 : Parsed :=
          if dp.quality = none ∧ t.parsed.quality ≠ none then
            { dp with quality := t.parsed.quality }
          else dp
        { t with parsed := dp2 }
  let t4 : Torrent :=
    match file.index with
    | none => t3
    | some i => { t3 with fileIndex := some i }
  let t5 : Torrent :=
    match file.title with
    | none => t4
    | some s => { t4 with title := s }
  match file.size with
  | none => t5
  | some z => { t5 with size := z }

/-- The whole merge-loop body applied to one torrent
(`debrid.py` lines 221–240): set `cached`, add the service name to
`cached_services` unless already present, then enrich the fields. -/
def applyRecord (service_name : String) (file : AvailFile) (t : Torrent) : Torrent :=
  enrichFields file
    { t with
      cached := true
      cached_services :=
        if service_name ∈ t.cached_services then t.cached_services
        else t.cached_services ++ [service_name] }

/-- One iteration of the merge loop (`debrid.py` lines 209–240): the record
is skipped when its non-null season or episode differs from the requested
one (a null record season/episode is not checked against the request);
otherwise the torrent with its info hash, if present, is updated. -/
def apply_file (service_name : String) (season episode : Option Int)
    (ts : TorrentMap) (file : AvailFile) : TorrentMap :=
  if (file.season ≠ none ∧ file.season ≠ season) ∨
     (file.episode ≠ none ∧ file.episode ≠ episode) then ts
  else updateAssoc ts file.info_hash (applyRecord service_name file)

/-- Merging one provider's availability response
(the `for file in availability` loop of
`MultiDebridService.get_and_cache_availability_all`). -/
def merge_service (service_name : String) (season episode : Option Int)
    (availability : List AvailFile) (ts : TorrentMap) : TorrentMap :=
  availability.foldl (apply_file service_name season episode) ts

/-- `MultiDebridService.get_and_cache_availability_all`: the gathered results
(`asyncio.gather` keeps task order, and a failed provider contributes
`(service, [])`) are merged in order.  The initial
`cached_services` presence check is the identity here because the embedded
`Torrent` always carries the field, and the detached `cache_availability`
write and the log line are external side effects with no effect on the
torrent set. -/
def get_and_cache_availability_all (season episode : Option Int)
    (results : List (String × List AvailFile)) (ts : TorrentMap) : TorrentMap :=
  results.foldl (fun acc r => merge_service r.1 season episode r.2 acc) ts

theorem lookupAssoc_cons (p : String × Torrent) (ts : TorrentMap) (h : String) :
    lookupAssoc (p :: ts) h = if p.1 = h then some p.2 else lookupAssoc ts h := by
  by_cases hp : p.1 = h
  · simp [lookupAssoc, List.find?_cons_of_pos, hp]
  · simp [lookupAssoc, List.find?_cons_of_neg, hp]

theorem lookupAssoc_updateAssoc (ts : TorrentMap) (k : String) (f : Torrent → Torrent)
    (h : String) :
    lookupAssoc (updateAssoc ts k f) h =
      if h = k then (lookupAssoc ts h).map f else lookupAssoc ts h := by
  induction ts with
  | nil => simp [lookupAssoc, updateAssoc]
  | cons p rest ih =>
    have hc : updateAssoc (p :: rest) k f =
        (if p.1 = k then (p.1, f p.2) else p) :: updateAssoc rest k f := rfl
    rw [hc]
    by_cases hpk : p.1 = k
    · by_cases hph : p.1 = h
      · have hk : h = k := by rw [← hph, hpk]
        simp [if_pos hpk, lookupAssoc_cons, hph, hk]
      · by_cases hhk : h = k
        · simp [if_pos hpk, lookupAssoc_cons, hph, hhk, ih]
        · simp [if_pos hpk, lookupAssoc_cons, hph, hhk, ih]
    · by_cases hph : p.1 = h
      · have hhk : ¬ h = k := fun e => hpk (by rw [hph, e])
        simp [if_neg hpk, lookupAssoc_cons, hph, hhk]
      · by_cases hhk : h = k
        · subst hhk
          simp [if_neg hpk, lookupAssoc_cons, hph, ih]
        · simp [if_neg hpk, lookupAssoc_cons, hph, hhk, ih]

theorem lookupAssoc_map (ts : TorrentMap) (g : Torrent → Torrent) (h : String) :
    lookupAssoc (ts.map fun p => (p.1, g p.2)) h = (lookupAssoc ts h).map g := by
  induction ts with
  | nil => rfl
  | cons p rest ih =>
    by_cases hp : p.1 = h <;> simp [List.map_cons, lookupAssoc_cons, hp, ih]

theorem updateAssoc_forall {P : Torrent → Prop} (ts : TorrentMap) (k : String)
    (f : Torrent → Torrent) (hts : ∀ p ∈ ts, P p.2) (hf : ∀ t, P t → P (f t)) :
    ∀ p ∈ updateAssoc ts k f, P p.2 := by
  intro p hp
  simp only [updateAssoc, List.mem_map] at hp
  obtain ⟨q, hq, rfl⟩ := hp
  by_cases hqk : q.1 = k
  · simpa [hqk] using hf _ (hts q hq)
  · simpa [hqk] using hts q hq

theorem enrichFields_cached_services (file : AvailFile) (t : Torrent) :
    (enrichFields file t).cached_services = t.cached_services := by
  unfold enrichFields
  cases file.parsed <;> cases file.index <;> cases file.title <;> cases file.size <;> rfl

theorem enrichFields_cached (file : AvailFile) (t : Torrent) :
    (enrichFields file t).cached = t.cached := by
  unfold enrichFields
  cases file.parsed <;> cases file.index <;> cases file.title <;> cases file.size <;> rfl

theorem applyRecord_cached_services (s : String) (file : AvailFile) (t : Torrent) :
    (applyRecord s file t).cached_services =
      if s ∈ t.cached_services then t.cached_services else t.cached_services ++ [s] := by
  unfold applyRecord
  rw [enrichFields_cached_services]

theorem applyRecord_cached (s : String) (file : AvailFile) (t : Torrent) :
    (applyRecord s file t).cached = true := by
  unfold applyRecord
  rw [enrichFields_cached]

theorem applyRecord_nodup (s : String) (file : AvailFile) (t : Torrent)
    (h : t.cached_services.Nodup) : (applyRecord s file t).cached_services.Nodup := by
  rw [applyRecord_cached_services]
  by_cases hm : s ∈ t.cached_services
  · simpa [hm] using h
  · simp [hm, List.nodup_append, h, List.disjoint_singleton]

theorem merge_service_nodup (s : String) (season episode : Option Int)
    (avail : List AvailFile) (ts : TorrentMap)
    (hts : ∀ p ∈ ts, p.2.cached_services.Nodup) :
    ∀ p ∈ merge_service s season episode avail ts, p.2.cached_services.Nodup := by
  induction avail generalizing ts with
  | nil => exact hts
  | cons f rest ih =>
    have hstep : merge_service s season episode (f :: rest) ts =
        merge_service s season episode rest (apply_file s season episode ts f) := rfl
    rw [hstep]
    refine ih _ ?_
    intro p hp
    unfold apply_file at hp
    split at hp
    · exact hts p hp
    · exact updateAssoc_forall (P := fun t => t.cached_services.Nodup) _ _ _ hts
        (fun t ht => applyRecord_nodup _ _ _ ht) p hp

/-- Sample parsed metadata: no quality tier, unknown resolution, no languages. -/
def sampleParsed : Parsed := { quality := none, resolution := "unknown", languages := [] }

/-- A fresh sample torrent as produced by the scraping stage. -/
def sampleTorrent : Torrent :=
  { title := "orig", size := 100, fileIndex := none, parsed := sampleParsed,
    cached := false, cached_services := [] }

/-- Provider A's record for hash `h1`: all enrichment fields non-null. -/
def fileA : AvailFile :=
  { info_hash := "h1", season := none, episode := none, parsed := none,
    index := some 1, title := some "tA", size := some 11 }

/-- Provider B's record for hash `h1`: all enrichment fields non-null,
with values different from provider A's. -/
def fileB : AvailFile :=
  { info_hash := "h1", season := none, episode := none, parsed := none,
    index := some 2, title := some "tB", size := some 22 }

/-- **C1**: the claim says the first non-null value wins for `fileIndex`,
`title`, `size` — once set, a later record's non-null value must not
overwrite it — making the merge order independent.  The merge loop of
`get_and_cache_availability_all` instead assigns unconditionally whenever a
record's value is non-null, so the *last* processed non-null value wins:
with providers A and B both reporting non-null enrichment fields for hash
`h1`, processing A then B leaves B's values, and processing B then A leaves
A's values, contradicting the claim (and the code's own comment "Update
torrent info from the first service that has it"). -/
theorem c1_enrichment_last_non_null_wins :
    (lookupAssoc (get_and_cache_availability_all none none
        [("A", [fileA]), ("B", [fileB])] [("h1", sampleTorrent)]) "h1").map
        (fun t => (t.title, t.fileIndex, t.size)) = some ("tB", some 2, 22) ∧
    (lookupAssoc (get_and_cache_availability_all none none
        [("B", [fileB]), ("A", [fileA])] [("h1", sampleTorrent)]) "h1").map
        (fun t => (t.title, t.fileIndex, t.size)) = some ("tA", some 1, 11) := by
  constructor <;> rfl

/-- A provider record with null season and episode and no enrichment data. -/
def fileWildcard : AvailFile :=
  { info_hash := "h1", season := none, episode := none, parsed := none,
    index := none, title := none, size := none }

/-- **C3** counterexample: the claim says a null record season/episode
matches only a null requested season/episode, so a record with
`season = episode = null` must leave the torrent unchanged when season 1
episode 2 is requested.  The code applies the record: the torrent becomes
cached with service "A" recorded. -/
theorem c3_counterexample_null_matches_any :
    (lookupAssoc (apply_file "A" (some 1) (some 2) [("h1", sampleTorrent)] fileWildcard)
        "h1").map (fun t => (t.cached, t.cached_services)) = some (true, ["A"]) := by
  rfl

/-- **C3** amended: a returned record is applied to a torrent iff each of
its season and episode is either null (a wildcard that matches any requested
value) or exactly equal to the requested value; a record with a non-null
season or episode different from the requested one leaves the torrent set
unchanged.  (A non-null record field never matches a null request.) -/
theorem c3_season_episode_wildcard_match (service_name : String)
    (season episode : Option Int) (ts : TorrentMap) (file : AvailFile) :
    ((file.season = none ∨ file.season = season) ∧
     (file.episode = none ∨ file.episode = episode) →
      apply_file service_name season episode ts file =
        updateAssoc ts file.info_hash (applyRecord service_name file)) ∧
    (((∃ v, file.season = some v ∧ season ≠ some v) ∨
      (∃ v, file.episode = some v ∧ episode ≠ some v)) →
      apply_file service_name season episode ts file = ts) := by
  constructor
  · rintro ⟨hs, he⟩
    unfold apply_file
    rw [if_neg]
    push_neg
    constructor
    · intro h1
      rcases hs with h | h
      · exact absurd h h1
      · exact h
    · intro h1
      rcases he with h | h
      · exact absurd h h1
      · exact h
  · intro hmis
    unfold apply_file
    rw [if_pos]
    rcases hmis with ⟨v, hv, hne⟩ | ⟨v, hv, hne⟩
    · exact Or.inl ⟨by simp [hv], by simp [hv]; exact fun e => hne e.symm⟩
    · exact Or.inr ⟨by simp [hv], by simp [hv]; exact fun e => hne e.symm⟩

/-- Witness for the C3 amended theorem: a record with season 3 is skipped
when season 1 is requested — the torrent set is returned unchanged. -/
theorem c3_season_episode_wildcard_match_witness :
    apply_file "A" (some 1) (some 2) [("h1", sampleTorrent)]
      { info_hash := "h1", season := some 3, episode := none, parsed := none,
        index := none, title := none, size := none } = [("h1", sampleTorrent)] :=
  (c3_season_episode_wildcard_match "A" (some 1) (some 2) [("h1", sampleTorrent)] _).2
    (Or.inl ⟨3, rfl, by decide⟩)

/-- **C8**: merging the same provider availability batch twice keeps every
torrent's `cached_services` duplicate-free — in particular the provider's
identifier occurs at most once — because the merge loop appends the service
name only when it is not already in the list. -/
theorem c8_merge_twice_no_duplicate_services (service_name : String)
    (season episode : Option Int) (availability : List AvailFile) (ts : TorrentMap)
    (hts : ∀ p ∈ ts, p.2.cached_services.Nodup) (h : String) (t' : Torrent)
    (hl : lookupAssoc (merge_service service_name season episode availability
            (merge_service service_name season episode availability ts)) h = some t') :
    t'.cached_services.Nodup ∧ t'.cached_services.count service_name ≤ 1 := by
  have h1 := merge_service_nodup service_name season episode availability ts hts
  have h2 := merge_service_nodup service_name season episode availability _ h1
  unfold lookupAssoc at hl
  rw [Option.map_eq_some'] at hl
  obtain ⟨p, hp, hpt⟩ := hl
  have hmem := List.mem_of_find?_eq_some hp
  have hnd : t'.cached_services.Nodup := hpt ▸ h2 p hmem
  exact ⟨hnd, List.nodup_iff_count_le_one.mp hnd service_name⟩

/-- Witness for the C8 theorem: merging provider A's batch twice over a
fresh one-torrent set leaves `cached_services = ["A"]`, duplicate-free. -/
theorem c8_merge_twice_no_duplicate_services_witness :
    (∀ p ∈ [("h1", sampleTorrent)], p.2.cached_services.Nodup) ∧
    ∃ t', lookupAssoc (merge_service "A" none none [fileWildcard]
            (merge_service "A" none none [fileWildcard] [("h1", sampleTorrent)])) "h1" =
          some t' ∧ t'.cached_services.Nodup ∧ t'.cached_services.count "A" ≤ 1 := by
  refine ⟨by decide, ?_⟩
  refine ⟨applyRecord "A" fileWildcard (applyRecord "A" fileWildcard sampleTorrent), rfl, ?_⟩
  exact c8_merge_twice_no_duplicate_services "A" none none [fileWildcard]
    [("h1", sampleTorrent)] (by decide) "h1" _ rfl

/-- One row of the availability cache as returned by `get_cached_availability`
for a configured service (the columns the loop body reads).  `parsed` is
stored as JSON in the database and decoded with `ParsedData(**orjson.loads(...))`;
it is embedded already decoded. -/
structure CacheRow where
  info_hash : String
  file_index : Option String
  size : Option Int
  parsed : Option Parsed
  title : Option String
  deriving DecidableEq, Repr

/-- The field updates of the cached-row loop body
(`debrid.py` lines 286–303): `fileIndex` from `int(row["file_index"])` with
`ValueError` swallowed (Python `int` on a string is embedded as
`String.toInt?`), then `size`, then `parsed`/`title` guarded by the
resolution check. -/
def cacheRowFields (row : CacheRow) (t : Torrent) : Torrent :=
  let t1 : Torrent :=
    match row.file_index with
    | none => t
    | some s =>
        match s.toInt? with
        | none => t
        | some i => { t with fileIndex := some i }
  let t2 : Torrent :=
    match row.size with
    | none => t1
    | some z => { t1 with size := z }
  match row.parsed with
  | none => t2
  | some cp =>
      if cp.resolution ≠ "unknown" ∨ t2.parsed.resolution = "unknown" then
        let t3 : Torrent := { t2 with parsed := cp }
        match row.title with
        | none => t3
        | some ti => { t3 with title := ti }
      else t2

/-- The whole loop body of `check_existing_availability_all` for one row
(`debrid.py` lines 277–303): mark cached, add the service unless present,
then apply the field updates. -/
def applyCacheRow (service : String) (row : CacheRow) (t : Torrent) : Torrent :=
  cacheRowFields row
    { t with
      cached := true
      cached_services :=
        if service ∈ t.cached_services then t.cached_services
        else t.cached_services ++ [service] }

/-- One iteration of the row loop: the torrent keyed by the row's info hash,
if present, is updated (`if info_hash not in torrents: continue`). -/
def apply_cache_row (service : String) (ts : TorrentMap) (row : CacheRow) : TorrentMap :=
  updateAssoc ts row.info_hash (applyCacheRow service row)

/-- `MultiDebridService.check_existing_availability_all`: reset `cached` and
`cached_services` for every torrent, then, for each configured service in
order, apply the rows the availability cache returned for it.  The rows per
service are an input (the result of the external `get_cached_availability`
call); the `len(torrents) == 0 or not self.services` early return happens
after the reset and is the identity fold over an empty list here. -/
def resetTorrent (t : Torrent) : Torrent :=
  { t with cached := false, cached_services := [] }

def check_existing_availability_all (svcRows : List (String × List CacheRow))
    (ts : TorrentMap) : TorrentMap :=
  let ts0 := ts.map fun p => (p.1, resetTorrent p.2)
  svcRows.foldl (fun acc sr => sr.2.foldl (apply_cache_row sr.1) acc) ts0

/-- Whether some configured service's returned rows mention info hash `h`. -/
def hitIn (h : String) (svcRows : List (String × List CacheRow)) : Bool :=
  svcRows.any fun sr => sr.2.any fun r => decide (r.info_hash = h)

theorem cacheRowFields_cached (row : CacheRow) (t : Torrent) :
    (cacheRowFields row t).cached = t.cached := by
  rcases row with ⟨ih, fi, sz, pa, ti⟩
  dsimp only [cacheRowFields]
  rcases fi with _ | s
  · rcases sz with _ | z <;> rcases pa with _ | cp <;> rcases ti with _ | x <;>
      simp [apply_ite (f := Torrent.cached)]
  · cases htoi : s.toInt? <;> rcases sz with _ | z <;> rcases pa with _ | cp <;>
      rcases ti with _ | x <;> simp [htoi, apply_ite (f := Torrent.cached)]

theorem cacheRowFields_cached_services (row : CacheRow) (t : Torrent) :
    (cacheRowFields row t).cached_services = t.cached_services := by
  rcases row with ⟨ih, fi, sz, pa, ti⟩
  dsimp only [cacheRowFields]
  rcases fi with _ | s
  · rcases sz with _ | z <;> rcases pa with _ | cp <;> rcases ti with _ | x <;>
      simp [apply_ite (f := Torrent.cached_services)]
  · cases htoi : s.toInt? <;> rcases sz with _ | z <;> rcases pa with _ | cp <;>
      rcases ti with _ | x <;> simp [htoi, apply_ite (f := Torrent.cached_services)]

theorem applyCacheRow_cached (s : String) (row : CacheRow) (t : Torrent) :
    (applyCacheRow s row t).cached = true := by
  unfold applyCacheRow
  rw [cacheRowFields_cached]

theorem applyCacheRow_cached_services (s : String) (row : CacheRow) (t : Torrent) :
    (applyCacheRow s row t).cached_services =
      if s ∈ t.cached_services then t.cached_services
      else t.cached_services ++ [s] := by
  unfold applyCacheRow
  rw [cacheRowFields_cached_services]

theorem applyCacheRow_services_ne_nil (s : String) (row : CacheRow) (t : Torrent) :
    (applyCacheRow s row t).cached_services ≠ [] := by
  rw [applyCacheRow_cached_services]
  by_cases hm : s ∈ t.cached_services
  · rw [if_pos hm]
    exact List.ne_nil_of_mem hm
  · rw [if_neg hm]
    simp

theorem rows_fold_lookup (s h : String) (rows : List CacheRow) (ts : TorrentMap)
    (t : Torrent) (hl : lookupAssoc ts h = some t) :
    ∃ t', lookupAssoc (rows.foldl (apply_cache_row s) ts) h = some t' ∧
      t'.cached = (t.cached || rows.any fun r => decide (r.info_hash = h)) ∧
      (t'.cached_services = [] ↔
        t.cached_services = [] ∧ (rows.any fun r => decide (r.info_hash = h)) = false) ∧
      (∀ x ∈ t'.cached_services, x ∈ t.cached_services ∨
        (x = s ∧ (rows.any fun r => decide (r.info_hash = h)) = true)) := by
  induction rows generalizing ts t with
  | nil => exact ⟨t, hl, by simp, by simp, fun x hx => Or.inl hx⟩
  | cons r rest ih =>
    by_cases hrh : r.info_hash = h
    · have hlu : lookupAssoc (apply_cache_row s ts r) h = some (applyCacheRow s r t) := by
        unfold apply_cache_row
        rw [lookupAssoc_updateAssoc, if_pos hrh.symm, hl]
        rfl
      obtain ⟨t', ht', hcached, hcs, hmem⟩ := ih _ _ hlu
      refine ⟨t', ht', ?_, ?_, ?_⟩
      · rw [hcached, applyCacheRow_cached]
        simp [hrh]
      · rw [hcs]
        have hne := applyCacheRow_services_ne_nil s r t
        simp [hrh, hne]
      · intro x hx
        rcases hmem x hx with hx1 | ⟨hx2, _⟩
        · rw [applyCacheRow_cached_services] at hx1
          by_cases hsm : s ∈ t.cached_services
          · rw [if_pos hsm] at hx1
            exact Or.inl hx1
          · rw [if_neg hsm] at hx1
            rcases List.mem_append.mp hx1 with h2 | h2
            · exact Or.inl h2
            · exact Or.inr ⟨List.mem_singleton.mp h2, by simp [hrh]⟩
        · exact Or.inr ⟨hx2, by simp [hrh]⟩
    · have hlu : lookupAssoc (apply_cache_row s ts r) h = some t := by
        unfold apply_cache_row
        rw [lookupAssoc_updateAssoc, if_neg (fun e => hrh e.symm), hl]
      obtain ⟨t', ht', hcached, hcs, hmem⟩ := ih _ _ hlu
      refine ⟨t', ht', ?_, ?_, ?_⟩
      · rw [hcached]
        simp [hrh]
      · rw [hcs]
        simp [hrh]
      · intro x hx
        rcases hmem x hx with hx1 | ⟨hx2, ha⟩
        · exact Or.inl hx1
        · exact Or.inr ⟨hx2, by simp [hrh, ha]⟩

theorem services_fold_lookup (svcRows : List (String × List CacheRow)) (h : String)
    (ts : TorrentMap) (t : Torrent) (hl : lookupAssoc ts h = some t) :
    ∃ t', lookupAssoc
        (svcRows.foldl (fun acc sr => sr.2.foldl (apply_cache_row sr.1) acc) ts) h =
        some t' ∧
      t'.cached = (t.cached || hitIn h svcRows) ∧
      (t'.cached_services = [] ↔ t.cached_services = [] ∧ hitIn h svcRows = false) ∧
      (∀ x ∈ t'.cached_services, x ∈ t.cached_services ∨
        ∃ sr ∈ svcRows, sr.1 = x ∧ (sr.2.any fun r => decide (r.info_hash = h)) = true) := by
  induction svcRows generalizing ts t with
  | nil => exact ⟨t, hl, by simp [hitIn], by simp [hitIn], fun x hx => Or.inl hx⟩
  | cons sr rest ih =>
    obtain ⟨t1, ht1, hc1, hcs1, hm1⟩ := rows_fold_lookup sr.1 h sr.2 ts t hl
    obtain ⟨t', ht', hc', hcs', hm'⟩ := ih _ _ ht1
    refine ⟨t', ht', ?_, ?_, ?_⟩
    · rw [hc', hc1]
      simp [hitIn, Bool.or_assoc]
    · rw [hcs', hcs1]
      simp [hitIn, and_assoc]
    · intro x hx
      rcases hm' x hx with hx1 | ⟨sr', hsr', he, ha⟩
      · rcases hm1 x hx1 with h2 | ⟨he, ha⟩
        · exact Or.inl h2
        · exact Or.inr ⟨sr, List.mem_cons_self sr rest, he.symm, ha⟩
      · exact Or.inr ⟨sr', List.mem_cons_of_mem sr hsr', he, ha⟩

/-- **C9**: `check_existing_availability_all` first resets `cached` and
`cached_services` for every torrent; afterwards a torrent is cached with a
non-empty `cached_services` iff some configured service returned a cached
availability row for its info hash in this invocation, and every entry of
`cached_services` names a service whose returned rows mention the hash —
nothing from before the call survives. -/
theorem c9_check_existing_resets_then_rebuilds
    (svcRows : List (String × List CacheRow)) (ts : TorrentMap) (h : String)
    (t : Torrent) (hl : lookupAssoc ts h = some t) :
    ∃ t', lookupAssoc (check_existing_availability_all svcRows ts) h = some t' ∧
      (t'.cached = true ↔ hitIn h svcRows = true) ∧
      (t'.cached_services ≠ [] ↔ hitIn h svcRows = true) ∧
      (∀ x ∈ t'.cached_services, ∃ sr ∈ svcRows, sr.1 = x ∧
        (sr.2.any fun r => decide (r.info_hash = h)) = true) := by
  have h0 : lookupAssoc (ts.map fun p => (p.1, resetTorrent p.2)) h =
      some (resetTorrent t) := by
    rw [lookupAssoc_map, hl]
    rfl
  obtain ⟨t', ht', hc, hcs, hm⟩ := services_fold_lookup svcRows h _ _ h0
  simp only [resetTorrent] at hc hcs hm
  simp only [Bool.false_or] at hc
  refine ⟨t', ht', ?_, ?_, ?_⟩
  · rw [hc]
  · by_cases hh : hitIn h svcRows = true
    · simp [hh] at hcs ⊢
      exact hcs
    · rw [Bool.not_eq_true] at hh
      simp [hh] at hcs ⊢
      exact hcs
  · intro x hx
    rcases hm x hx with hx1 | h2
    · simp at hx1
    · exact h2

/-- Sample availability-cache row for info hash `h1` with no payload columns. -/
def sampleCacheRow : CacheRow :=
  { info_hash := "h1", file_index := none, size := none, parsed := none, title := none }

/-- Witness for the C9 theorem: a torrent that enters the call already
cached by service "old" is reset; service "A" reports it, service "B" does
not, so it ends cached exactly by "A". -/
theorem c9_check_existing_resets_then_rebuilds_witness :
    ∃ t', lookupAssoc (check_existing_availability_all
        [("A", [sampleCacheRow]), ("B", [])]
        [("h1", { sampleTorrent with cached := true, cached_services := ["old"] })])
        "h1" = some t' ∧
      (t'.cached = true ↔ hitIn "h1" [("A", [sampleCacheRow]), ("B", [])] = true) ∧
      (t'.cached_services ≠ [] ↔ hitIn "h1" [("A", [sampleCacheRow]), ("B", [])] = true) ∧
      (∀ x ∈ t'.cached_services, ∃ sr ∈ [("A", [sampleCacheRow]), ("B", ([] : List CacheRow))],
        sr.1 = x ∧ (sr.2.any fun r => decide (r.info_hash = "h1")) = true) :=
  c9_check_existing_resets_then_rebuilds [("A", [sampleCacheRow]), ("B", [])]
    [("h1", { sampleTorrent with cached := true, cached_services := ["old"] })] "h1"
    { sampleTorrent with cached := true, cached_services := ["old"] } rfl

/-- One row of the `download_links_cache` table
(`playback.py`): keyed by (debrid API key, info hash, season, episode),
holding a download URL and the insertion timestamp.  `time.time()` values
are embedded as integer seconds. -/
structure DLRow where
  debrid_key : String
  info_hash : String
  season : Option Int
  episode : Option Int
  download_url : String
  timestamp : Int
  deriving DecidableEq, Repr

/-- The SQL null-tolerant equality of the lookup's WHERE clause:
`(CAST(:q) IS NULL AND col IS NULL) OR col = CAST(:q)`.  A null query
matches only a null column; a non-null query matches only an equal
non-null column (SQL `col = v` is not satisfied by a NULL column). -/
def optIntMatches (colv queryv : Option Int) : Bool :=
  match queryv, colv with
  | none, none => true
  | none, some _ => false
  | some q, some c => decide (c = q)
  | some _, none => false

/-- The full WHERE clause of the download-link cache lookup
(`playback.py` lines 81–98), including the TTL condition
`timestamp + 3600 >= :current_time`. -/
def dl_row_matches (r : DLRow) (key h : String) (s e : Option Int) (now : Int) : Bool :=
  decide (r.debrid_key = key) && decide (r.info_hash = h) &&
    optIntMatches r.season s && optIntMatches r.episode e &&
    decide (r.timestamp + 3600 ≥ now)

/-- `database.fetch_one` over the cache: the first matching row's
`download_url`, if any. -/
def dl_lookup (rows : List DLRow) (key h : String) (s e : Option Int) (now : Int) :
    Option String :=
  (rows.find? fun r => dl_row_matches r key h s e now).map (·.download_url)

/-- The key four-tuple of a download-link cache row. -/
def dl_key (r : DLRow) : String × String × Option Int × Option Int :=
  (r.debrid_key, r.info_hash, r.season, r.episode)

/-- Modelled from the spec: the `download_links_cache` table schema (its
unique key constraint) is not under `src/`; only the insert statement is.
The statement `INSERT OR IGNORE` (sqlite) / `INSERT ... ON CONFLICT DO
NOTHING` (postgresql) of `playback.py` lines 168–183, under the spec's
first-writer-wins contract, inserts the row only when no row with the same
(debrid key, info hash, season, episode) key exists, and otherwise is a
no-op. -/
def insertIfAbsent (tbl : List DLRow) (r : DLRow) : List DLRow :=
  if tbl.any fun x => decide (dl_key x = dl_key r) then tbl else tbl ++ [r]

/-- The table holds at most one row per key. -/
def keyUnique (tbl : List DLRow) : Prop :=
  tbl.Pairwise fun a b => dl_key a ≠ dl_key b

/-- Observable outcome of one playback resolution: the returned URL
(`none` embeds the static `uncached.mp4` response), whether
`generate_download_link` was called, and the cache row inserted, if any. -/
structure ResolveOutcome where
  response : Option String
  providerCalled : Bool
  insertedRow : Option DLRow
  deriving DecidableEq, Repr

/-- The cache-then-provider control flow of `playback_with_service`
(`playback.py` lines 80–194): on a TTL-valid cache hit the stored URL is
returned with no provider call and no insert; on a miss the provider is
asked for a link (`genResult` embeds the outcome of
`generate_download_link` with its torrent-store and alias context), a
failed generation returns the uncached placeholder, and a successful one
is inserted into the cache and returned.  The proxy-vs-redirect split on
the returned URL is external streaming plumbing and not modelled. -/
def playback_with_service (rows : List DLRow) (genResult : Option String)
    (key h : String) (s e : Option Int) (now : Int) : ResolveOutcome :=
  match dl_lookup rows key h s e now with
  | some url => { response := some url, providerCalled := false, insertedRow := none }
  | none =>
      match genResult with
      | none => { response := none, providerCalled := true, insertedRow := none }
      | some url =>
          { response := some url, providerCalled := true,
            insertedRow := some
              { debrid_key := key, info_hash := h, season := s, episode := e,
                download_url := url, timestamp := now } }


/-- Sample download-link row for key ("k", "h", null, null) with URL `u`
inserted at time `ts`. -/
def dlRow (u : String) (ts : Int) : DLRow :=
  { debrid_key := "k", info_hash := "h", season := none, episode := none,
    download_url := u, timestamp := ts }

/-- Sample download-link row for key ("k", "h", 1, 2) inserted at time 50. -/
def dlRowSE : DLRow :=
  { debrid_key := "k", info_hash := "h", season := some 1, episode := some 2,
    download_url := "u", timestamp := 50 }

/-- **C4** counterexample: the claim says a row is a hit iff its age is
strictly less than 3600 seconds, so a row aged exactly 3600 seconds must be
a miss.  The lookup's condition is `timestamp + 3600 >= now`, so a row
inserted at time 0 is still returned at time 3600. -/
theorem c4_counterexample_age_3600_is_hit :
    dl_lookup [dlRow "u" 0] "k" "h" none none 3600 = some "u" := by
  rfl

/-- **C4** amended: a stored row whose key matches is returned iff its age
`now - timestamp` is at most 3600 seconds (the boundary age of exactly 3600
is still a hit, so a row aged 3599s is valid and a row aged 3601s is
expired); a strictly older row is ignored, not deleted, and when no row is
returned the provider path is taken. -/
theorem c4_ttl_at_most_3600 (r : DLRow) (key h : String) (s e : Option Int) (now : Int)
    (h1 : r.debrid_key = key) (h2 : r.info_hash = h)
    (h3 : optIntMatches r.season s = true) (h4 : optIntMatches r.episode e = true) :
    (dl_row_matches r key h s e now = true ↔ now - r.timestamp ≤ 3600) ∧
    ∀ rows gen, dl_lookup rows key h s e now = none →
      (playback_with_service rows gen key h s e now).providerCalled = true := by
  constructor
  · unfold dl_row_matches
    simp [h1, h2, h3, h4]
    omega
  · intro rows gen hmiss
    unfold playback_with_service
    rw [hmiss]
    cases gen <;> rfl

/-- Witness for the C4 amended theorem: a key-matching row aged 3599s is a
hit, and an empty lookup result forces the provider path. -/
theorem c4_ttl_at_most_3600_witness :
    (dl_row_matches (dlRow "u" 1) "k" "h" none none 3600 = true ↔
      (3600 : Int) - (dlRow "u" 1).timestamp ≤ 3600) ∧
    ∀ rows gen, dl_lookup rows "k" "h" none none 3600 = none →
      (playback_with_service rows gen "k" "h" none none 3600).providerCalled = true :=
  c4_ttl_at_most_3600 (dlRow "u" 1) "k" "h" none none 3600 rfl rfl rfl rfl

/-- **C6**: on a TTL-valid download-link cache hit the stored URL is
returned, `generate_download_link` is never called and no cache row is
written; and whenever the provider is called, the lookup was a miss. -/
theorem c6_cache_hit_no_provider_call (rows : List DLRow) (gen : Option String)
    (key h : String) (s e : Option Int) (now : Int) :
    (∀ url, dl_lookup rows key h s e now = some url →
      playback_with_service rows gen key h s e now =
        { response := some url, providerCalled := false, insertedRow := none }) ∧
    ((playback_with_service rows gen key h s e now).providerCalled = true →
      dl_lookup rows key h s e now = none) := by
  constructor
  · intro url hhit
    unfold playback_with_service
    rw [hhit]
  · intro hcall
    unfold playback_with_service at hcall
    cases hlook : dl_lookup rows key h s e now with
    | none => rfl
    | some url =>
        rw [hlook] at hcall
        simp at hcall

/-- Witness for the C6 theorem: a one-row table with a fresh matching row
is a hit, and the resolution returns it without calling the provider or
writing a new row. -/
theorem c6_cache_hit_no_provider_call_witness :
    playback_with_service [dlRowSE] (some "other") "k" "h" (some 1) (some 2) 100 =
      { response := some "u", providerCalled := false, insertedRow := none } :=
  (c6_cache_hit_no_provider_call [dlRowSE] (some "other") "k" "h"
    (some 1) (some 2) 100).1 "u" rfl

/-- **C7**: the download-link cache keeps at most one row per
(provider key, info hash, season, episode) key — `insertIfAbsent` preserves
key uniqueness — and insertion is first-writer-wins: an insert whose key is
already present returns the table unchanged (so the existing row's URL
survives and the new URL is not recorded). -/
theorem c7_first_writer_wins (tbl : List DLRow) (r : DLRow) :
    (keyUnique tbl → keyUnique (insertIfAbsent tbl r)) ∧
    (∀ x ∈ tbl, dl_key x = dl_key r → insertIfAbsent tbl r = tbl) := by
  constructor
  · intro hu
    unfold insertIfAbsent
    by_cases hany : (tbl.any fun x => decide (dl_key x = dl_key r)) = true
    · rw [if_pos hany]
      exact hu
    · rw [if_neg hany]
      unfold keyUnique
      rw [List.pairwise_append]
      refine ⟨hu, List.pairwise_singleton _ _, ?_⟩
      intro a ha b hb
      rw [List.mem_singleton] at hb
      subst hb
      simp only [List.any_eq_true, decide_eq_true_eq, not_exists, not_and] at hany
      exact fun e => (hany a ha) e
  · intro x hx hk
    unfold insertIfAbsent
    rw [if_pos]
    rw [List.any_eq_true]
    exact ⟨x, hx, by simp [hk]⟩

/-- Witness for the C7 theorem: inserting a second URL for an
already-present key leaves the one-row table unchanged. -/
theorem c7_first_writer_wins_witness :
    insertIfAbsent [dlRow "u1" 0] (dlRow "u2" 9) = [dlRow "u1" 0] :=
  (c7_first_writer_wins [dlRow "u1" 0] (dlRow "u2" 9)).2 (dlRow "u1" 0)
    (List.mem_singleton.mpr rfl) rfl

/-- The `name_to_iso` map of `check_required_languages`
(`ranking.py` lines 25–74), as an association list in source order. -/
def name_to_iso : List (String × String) :=
  [("multi", "multi"), ("english", "en"), ("japanese", "ja"), ("chinese", "zh"),
   ("russian", "ru"), ("arabic", "ar"), ("portuguese", "pt"), ("spanish", "es"),
   ("french", "fr"), ("german", "de"), ("italian", "it"), ("korean", "ko"),
   ("hindi", "hi"), ("bengali", "bn"), ("punjabi", "pa"), ("marathi", "mr"),
   ("gujarati", "gu"), ("tamil", "ta"), ("telugu", "te"), ("kannada", "kn"),
   ("malayalam", "ml"), ("thai", "th"), ("vietnamese", "vi"), ("indonesian", "id"),
   ("turkish", "tr"), ("hebrew", "he"), ("persian", "fa"), ("ukrainian", "uk"),
   ("greek", "el"), ("lithuanian", "lt"), ("latvian", "lv"), ("estonian", "et"),
   ("polish", "pl"), ("czech", "cs"), ("slovak", "sk"), ("hungarian", "hu"),
   ("romanian", "ro"), ("bulgarian", "bg"), ("serbian", "sr"), ("croatian", "hr"),
   ("slovenian", "sl"), ("dutch", "nl"), ("danish", "da"), ("finnish", "fi"),
   ("swedish", "sv"), ("norwegian", "no"), ("malay", "ms"), ("latino", "la")]

/-- `name_to_iso.get(req_lower, req_lower)`: the ISO code for a language
name, or the input itself when it is not in the map. -/
def lookupIso (req : String) : String :=
  ((name_to_iso.find? fun p => decide (p.1 = req)).map (·.2)).getD req

/-- The hardcoded title patterns for "multi" (`ranking.py` line 79). -/
def multi_title_patterns : List String :=
  [".multi.", "multi.", ".multi-", "-multi.", "-multi-"]

/-- The hardcoded title patterns for "french" (`ranking.py` lines 80–82). -/
def french_title_patterns : List String :=
  [".french.", "french.", ".french-", "-french.", "-french-",
   ".vf.", ".vff.", ".vfq.", ".vf2.", ".truefrench.", ".vostfr.",
   ".subfrench.", ".fra.", "-vf-", "-vff-", "-vfq-"]

/-- The `title_patterns` dict of `check_required_languages`
(`ranking.py` lines 78–83): only "multi" and "french" have entries. -/
def title_patterns : List (String × List String) :=
  [("multi", multi_title_patterns), ("french", french_title_patterns)]

/-- `check_required_languages` (`ranking.py` lines 4–114): true when no
language is required, or when, for some required language, its ISO code
(after lowercasing and aliasing) is among the lowercased parsed languages,
or a hardcoded title pattern for it ("multi"/"french" only) occurs in the
lowercased title, or one of the six generated delimiter patterns occurs in
the lowercased title. -/
def check_required_languages (parsed_languages required_languages : List String)
    (raw_title : String) : Bool :=
  if required_languages.isEmpty then true
  else
    let parsed_lower := parsed_languages.map lowerStr
    let title_lower := lowerStr raw_title
    required_languages.any fun req_lang =>
      let req_lower := lowerStr req_lang
      let iso_code := lookupIso req_lower
      decide (iso_code ∈ parsed_lower) ||
      (match title_patterns.find? fun p => decide (p.1 = req_lower) with
       | some pats => pats.2.any fun pat => strContains title_lower pat
       | none => false) ||
      (["." ++ req_lower ++ ".", "." ++ iso_code ++ ".",
        "-" ++ req_lower ++ "-", "-" ++ iso_code ++ "-",
        "." ++ req_lower ++ "-", "-" ++ req_lower ++ "."].any fun pat =>
        strContains title_lower pat)

theorem title_patterns_find (r : String) :
    (title_patterns.find? fun p => decide (p.1 = r)) =
      if r = "multi" then some ("multi", multi_title_patterns)
      else if r = "french" then some ("french", french_title_patterns)
      else none := by
  by_cases h1 : r = "multi"
  · subst h1
    rfl
  · by_cases h2 : r = "french"
    · subst h2
      rfl
    · rw [if_neg h1, if_neg h2]
      simp [title_patterns, List.find?, Ne.symm h1, Ne.symm h2]

theorem languageClause_iff (parsed_lower : List String) (title_lower : String)
    (req : String) :
    (decide (lookupIso req ∈ parsed_lower) ||
     (match title_patterns.find? fun p => decide (p.1 = req) with
      | some pats => pats.2.any fun pat => strContains title_lower pat
      | none => false) ||
     (["." ++ req ++ ".", "." ++ lookupIso req ++ ".",
       "-" ++ req ++ "-", "-" ++ lookupIso req ++ "-",
       "." ++ req ++ "-", "-" ++ req ++ "."].any fun pat =>
       strContains title_lower pat)) = true ↔
    (lookupIso req ∈ parsed_lower) ∨
    (req = "multi" ∧ ∃ pat ∈ multi_title_patterns, strContains title_lower pat = true) ∨
    (req = "french" ∧ ∃ pat ∈ french_title_patterns, strContains title_lower pat = true) ∨
    (∃ pat ∈ ["." ++ req ++ ".", "." ++ lookupIso req ++ ".",
              "-" ++ req ++ "-", "-" ++ lookupIso req ++ "-",
              "." ++ req ++ "-", "-" ++ req ++ "."],
      strContains title_lower pat = true) := by
  rw [title_patterns_find]
  by_cases h1 : req = "multi"
  · subst h1
    simp [List.any_eq_true]
    aesop
  · by_cases h2 : req = "french"
    · subst h2
      simp [List.any_eq_true]
      aesop
    · rw [if_neg h1, if_neg h2]
      simp [h1, h2, List.any_eq_true]

/-- The corrected, code-accurate reading of the language filter: inclusion
iff no language is required, or some required language's aliased ISO code
is among the (lowercased) parsed languages, or the required language is
"multi" or "french" and one of its hardcoded patterns occurs in the
lowercased title, or one of the six generated delimiter tokens
`.name.`, `.iso.`, `-name-`, `-iso-`, `.name-`, `-name.` occurs in the
lowercased title (note: `name.` without a leading delimiter is checked only
through the hardcoded "multi"/"french" tables, and the mixed forms
`.iso-` / `-iso.` are never generated for the ISO code). -/
def languageFilterSpec (parsed required : List String) (title : String) : Prop :=
  required = [] ∨
  ∃ req ∈ required,
    (lookupIso (lowerStr req) ∈ parsed.map lowerStr) ∨
    (lowerStr req = "multi" ∧
      ∃ pat ∈ multi_title_patterns, strContains (lowerStr title) pat = true) ∨
    (lowerStr req = "french" ∧
      ∃ pat ∈ french_title_patterns, strContains (lowerStr title) pat = true) ∨
    (∃ pat ∈ ["." ++ (lowerStr req) ++ ".", "." ++ lookupIso (lowerStr req) ++ ".",
              "-" ++ (lowerStr req) ++ "-", "-" ++ lookupIso (lowerStr req) ++ "-",
              "." ++ (lowerStr req) ++ "-", "-" ++ (lowerStr req) ++ "."],
      strContains (lowerStr title) pat = true)

/-- **C5** counterexample: the claim's delimiter-token forms include
`name.`, so a torrent with parsed languages `[]` and title
`german.2020.bluray` (which contains the token `german.`) would have to be
included for required `["german"]`.  The code checks `name.` only for the
hardcoded "multi"/"french" tables and excludes this torrent. -/
theorem c5_counterexample_name_dot_form :
    check_required_languages [] ["german"] "german.2020.bluray" = false ∧
    strContains (lowerStr "german.2020.bluray") "german." = true := by
  constructor <;> rfl

/-- **C5** amended: the language filter includes a candidate iff
`languageFilterSpec` holds — required empty, or an aliased ISO code among
the parsed languages, or a hardcoded "multi"/"french" pattern in the title,
or one of the six generated delimiter tokens in the title; the claim's two
examples (`Movie.2020.FRENCH.1080p` included for `["french"]` with no
parsed languages, parsed `["en"]` with no matching token excluded) follow. -/
theorem c5_language_filter_characterization (parsed required : List String)
    (title : String) :
    check_required_languages parsed required title = true ↔
      languageFilterSpec parsed required title := by
  by_cases hreq : required = []
  · subst hreq
    simp [check_required_languages, languageFilterSpec]
  · have hne : required.isEmpty = false := by
      cases required with
      | nil => exact absurd rfl hreq
      | cons a l => rfl
    unfold check_required_languages languageFilterSpec
    simp only [hne, Bool.false_eq_true, if_false, hreq, false_or]
    constructor
    · intro hany
      obtain ⟨req, hmem, hcl⟩ := List.any_eq_true.mp hany
      exact ⟨req, hmem,
        (languageClause_iff (parsed.map lowerStr) (lowerStr title) (lowerStr req)).mp hcl⟩
    · rintro ⟨req, hmem, hcl⟩
      exact List.any_eq_true.mpr ⟨req, hmem,
        (languageClause_iff (parsed.map lowerStr) (lowerStr title) (lowerStr req)).mpr hcl⟩

/-- One element of the `ranked_torrents` set built by `rank_worker`: the
fields of the `RTN.Torrent` model the code constructs (`lev_ratio` is the
constant 0.0 and is omitted).  Python set membership uses the model's
equality, embedded as structural equality. -/
structure RankedTorrent where
  infohash : String
  raw_title : String
  fetch : Bool
  rank : Int
  deriving DecidableEq, Repr

/-- The three `continue` filters at the top of the `rank_worker` loop body
(`ranking.py` lines 135–148): cached-only (skipped for the "torrent"
service), maximum size (0 = unlimited), and the required-languages filter
(applied only when some language is required). -/
def passes_filters (debrid_service : String) (cached_only : Bool) (max_size : Int)
    (required_languages : List String) (t : Torrent) : Bool :=
  (!(cached_only && decide (debrid_service ≠ "torrent") && !t.cached)) &&
  (!(decide (max_size ≠ 0) && decide (t.size > max_size))) &&
  (!(decide (required_languages ≠ []) &&
     !check_required_languages t.parsed.languages required_languages t.title))

/-- The `remove_trash` gate (`ranking.py` lines 153–155): drop when not
fetchable or ranked under `remove_ranks_under`. -/
def passes_trash (remove_trash : Bool) (remove_ranks_under : Int)
    (fetchable : Bool) (rank : Int) : Bool :=
  !(remove_trash && (!fetchable || decide (rank < remove_ranks_under)))

/-- `ranked_torrents.add(...)`: Python set insertion — a no-op when an
equal element is already present, otherwise the element is added
(insertion order retained in the embedding). -/
def addRanked (acc : List RankedTorrent) (rt : RankedTorrent) : List RankedTorrent :=
  if rt ∈ acc then acc else acc ++ [rt]

/-- One iteration of the `rank_worker` loop (`ranking.py` lines 134–169).
The external RTN calls are oracle inputs: `checkFetch` embeds `check_fetch`
(its discarded `failed_keys` component is omitted), `getRank` embeds
`get_rank`, `mkTorrent` embeds the `Torrent(...)` construction.  The
`try/except` wraps only the `Torrent(...)` construction and the set add, so
`mkTorrent` errors are swallowed per candidate while `checkFetch`/`getRank`
errors escape the loop. -/
def rank_step (checkFetch : Parsed → Except String Bool)
    (getRank : Parsed → Except String Int)
    (mkTorrent : String → String → Parsed → Bool → Int → Except String RankedTorrent)
    (debrid_service : String) (cached_only remove_trash : Bool)
    (max_size remove_ranks_under : Int) (required_languages : List String)
    (acc : List RankedTorrent) (p : String × Torrent) :
    Except String (List RankedTorrent) :=
  if passes_filters debrid_service cached_only max_size required_languages p.2 then
    match checkFetch p.2.parsed with
    | .error e => .error e
    | .ok is_fetchable =>
        match getRank p.2.parsed with
        | .error e => .error e
        | .ok rank =>
            if passes_trash remove_trash remove_ranks_under is_fetchable rank then
              match mkTorrent p.1 p.2.title p.2.parsed is_fetchable rank with
              | .error _ => .ok acc
              | .ok rt => .ok (addRanked acc rt)
            else .ok acc
  else .ok acc

/-- `rank_worker` (`ranking.py` lines 117–171) up to the collected
`ranked_torrents` set, in insertion order.  The final `sort_torrents` call
(resolution bucketing and per-bucket truncation) is RTN library code, an
external opaque transform applied to the collected set, and is not part of
the embedded loop; an uncaught exception of the loop is the `Except.error`
outcome. -/
def rank_worker (checkFetch : Parsed → Except String Bool)
    (getRank : Parsed → Except String Int)
    (mkTorrent : String → String → Parsed → Bool → Int → Except String RankedTorrent)
    (debrid_service : String) (cached_only remove_trash : Bool)
    (max_size remove_ranks_under : Int) (required_languages : List String)
    (torrents : TorrentMap) : Except String (List RankedTorrent) :=
  torrents.foldlM
    (rank_step checkFetch getRank mkTorrent debrid_service cached_only remove_trash
      max_size remove_ranks_under required_languages) []

theorem addRanked_mem_mono (acc : List RankedTorrent) (rt x : RankedTorrent)
    (hx : x ∈ acc) : x ∈ addRanked acc rt := by
  unfold addRanked
  split
  · exact hx
  · exact List.mem_append_left _ hx

theorem addRanked_self_mem (acc : List RankedTorrent) (rt : RankedTorrent) :
    rt ∈ addRanked acc rt := by
  unfold addRanked
  split
  · assumption
  · exact List.mem_append_right _ (List.mem_singleton.mpr rfl)

theorem rank_fold_ok (cf : Parsed → Except String Bool) (gr : Parsed → Except String Int)
    (mk : String → String → Parsed → Bool → Int → Except String RankedTorrent)
    (ds : String) (co rtf : Bool) (ms rru : Int) (req : List String)
    (ts : TorrentMap) (acc : List RankedTorrent)
    (hcf : ∀ p, ∃ b, cf p = Except.ok b) (hgr : ∀ p, ∃ r, gr p = Except.ok r) :
    ∃ out, ts.foldlM (rank_step cf gr mk ds co rtf ms rru req) acc = Except.ok out ∧
      (∀ x ∈ acc, x ∈ out) ∧
      (∀ h t fb rk rtv, (h, t) ∈ ts →
        passes_filters ds co ms req t = true →
        cf t.parsed = Except.ok fb → gr t.parsed = Except.ok rk →
        passes_trash rtf rru fb rk = true →
        mk h t.title t.parsed fb rk = Except.ok rtv →
        rtv ∈ out) := by
  induction ts generalizing acc with
  | nil =>
    exact ⟨acc, rfl, fun x hx => hx,
      fun h t fb rk rtv hmem => absurd hmem (List.not_mem_nil _)⟩
  | cons p rest ih =>
    obtain ⟨b, hb⟩ := hcf p.2.parsed
    obtain ⟨r, hr⟩ := hgr p.2.parsed
    by_cases hf : passes_filters ds co ms req p.2 = true
    · by_cases htr0 : passes_trash rtf rru b r = true
      · cases hmk : mk p.1 p.2.title p.2.parsed b r with
        | error e =>
          have hstep : rank_step cf gr mk ds co rtf ms rru req acc p = Except.ok acc := by
            simp [rank_step, hf, hb, hr, htr0, hmk]
          obtain ⟨out, hout, hmono, hins⟩ := ih acc
          refine ⟨out, ?_, hmono, ?_⟩
          · rw [List.foldlM_cons, hstep]
            exact hout
          · intro h t fb rk rtv hmem hfil hcf2 hgr2 htr2 hmk2
            rcases List.mem_cons.mp hmem with he | hrest
            · have hteq : t = p.2 := congrArg Prod.snd he
              have hheq : h = p.1 := congrArg Prod.fst he
              rw [hteq] at hcf2 hgr2
              rw [hb] at hcf2
              rw [hr] at hgr2
              have hfb := Except.ok.inj hcf2
              have hrk := Except.ok.inj hgr2
              rw [hheq, hteq, ← hfb, ← hrk, hmk] at hmk2
              exact absurd hmk2 (by simp)
            · exact hins h t fb rk rtv hrest hfil hcf2 hgr2 htr2 hmk2
        | ok rt0 =>
          have hstep : rank_step cf gr mk ds co rtf ms rru req acc p =
              Except.ok (addRanked acc rt0) := by
            simp [rank_step, hf, hb, hr, htr0, hmk]
          obtain ⟨out, hout, hmono, hins⟩ := ih (addRanked acc rt0)
          refine ⟨out, ?_, ?_, ?_⟩
          · rw [List.foldlM_cons, hstep]
            exact hout
          · intro x hx
            exact hmono x (addRanked_mem_mono acc rt0 x hx)
          · intro h t fb rk rtv hmem hfil hcf2 hgr2 htr2 hmk2
            rcases List.mem_cons.mp hmem with he | hrest
            · have hteq : t = p.2 := congrArg Prod.snd he
              have hheq : h = p.1 := congrArg Prod.fst he
              rw [hteq] at hcf2 hgr2
              rw [hb] at hcf2
              rw [hr] at hgr2
              have hfb := Except.ok.inj hcf2
              have hrk := Except.ok.inj hgr2
              rw [hheq, hteq, ← hfb, ← hrk, hmk] at hmk2
              have hrtv := Except.ok.inj hmk2
              rw [← hrtv]
              exact hmono rt0 (addRanked_self_mem acc rt0)
            · exact hins h t fb rk rtv hrest hfil hcf2 hgr2 htr2 hmk2
      · have hstep : rank_step cf gr mk ds co rtf ms rru req acc p = Except.ok acc := by
          simp [rank_step, hf, hb, hr, htr0]
        obtain ⟨out, hout, hmono, hins⟩ := ih acc
        refine ⟨out, ?_, hmono, ?_⟩
        · rw [List.foldlM_cons, hstep]
          exact hout
        · intro h t fb rk rtv hmem hfil hcf2 hgr2 htr2 hmk2
          rcases List.mem_cons.mp hmem with he | hrest
          · have hteq : t = p.2 := congrArg Prod.snd he
            rw [hteq] at hcf2 hgr2
            rw [hb] at hcf2
            rw [hr] at hgr2
            have hfb := Except.ok.inj hcf2
            have hrk := Except.ok.inj hgr2
            rw [← hfb, ← hrk] at htr2
            exact absurd htr2 htr0
          · exact hins h t fb rk rtv hrest hfil hcf2 hgr2 htr2 hmk2
    · have hstep : rank_step cf gr mk ds co rtf ms rru req acc p = Except.ok acc := by
        simp [rank_step, hf]
      obtain ⟨out, hout, hmono, hins⟩ := ih acc
      refine ⟨out, ?_, hmono, ?_⟩
      · rw [List.foldlM_cons, hstep]
        exact hout
      · intro h t fb rk rtv hmem hfil hcf2 hgr2 htr2 hmk2
        rcases List.mem_cons.mp hmem with he | hrest
        · have hteq : t = p.2 := congrArg Prod.snd he
          rw [hteq] at hfil
          exact absurd hfil hf
        · exact hins h t fb rk rtv hrest hfil hcf2 hgr2 htr2 hmk2

/-- Parsed metadata whose language list is the sentinel `["zz"]`, used to
make the sample scoring oracle fail on exactly one candidate. -/
def parsedBoom : Parsed := { quality := none, resolution := "1080p", languages := ["zz"] }

/-- Parsed metadata with no languages, 1080p. -/
def parsedPlain : Parsed := { quality := none, resolution := "1080p", languages := [] }

/-- Sample candidate torrent A (its parsed data triggers the failing oracle). -/
def torrentA : Torrent :=
  { title := "A", size := 1, fileIndex := none, parsed := parsedBoom,
    cached := true, cached_services := [] }

/-- Sample candidate torrent B. -/
def torrentB : Torrent :=
  { title := "B", size := 1, fileIndex := none, parsed := parsedPlain,
    cached := true, cached_services := [] }

/-- A `check_fetch` oracle that raises on `parsedBoom` and succeeds elsewhere. -/
def cfBoom : Parsed → Except String Bool :=
  fun p => if p.languages = ["zz"] then Except.error "boom" else Except.ok true

/-- A total `get_rank` oracle. -/
def grFive : Parsed → Except String Int := fun _ => Except.ok 5

/-- A total `Torrent(...)` constructor oracle. -/
def mkPlain : String → String → Parsed → Bool → Int → Except String RankedTorrent :=
  fun h t _ fb rk => Except.ok { infohash := h, raw_title := t, fetch := fb, rank := rk }

/-- **C2** counterexample: the claim says a failure of the scoring call on
one candidate excludes only that candidate and the pass completes normally.
`check_fetch`/`get_rank` are called outside the `try`, so when scoring
raises on candidate A the whole pass aborts with that exception and
candidate B is lost — although B alone would be ranked normally. -/
theorem c2_counterexample_scoring_failure_aborts_pass :
    rank_worker cfBoom grFive mkPlain "realdebrid" false false 0 0 []
        [("hA", torrentA), ("hB", torrentB)] = Except.error "boom" ∧
    rank_worker cfBoom grFive mkPlain "realdebrid" false false 0 0 [] [("hB", torrentB)] =
      Except.ok [{ infohash := "hB", raw_title := "B", fetch := true, rank := 5 }] := by
  constructor <;> rfl

/-- **C2** amended: the per-candidate isolation holds one stage later: when
the scoring calls (`check_fetch`, `get_rank`) succeed on every candidate,
the pass completes normally, and a failure constructing the ranked
`Torrent(...)` entry for one candidate excludes only that candidate —
every candidate that passes the filters, scores, passes the trash gate and
constructs successfully is in the result.  (A failure inside `check_fetch`
or `get_rank` itself propagates and aborts the whole pass, as the
counterexample shows.) -/
theorem c2_torrent_construction_failure_isolated
    (cf : Parsed → Except String Bool) (gr : Parsed → Except String Int)
    (mk : String → String → Parsed → Bool → Int → Except String RankedTorrent)
    (ds : String) (co rtf : Bool) (ms rru : Int) (req : List String) (ts : TorrentMap)
    (hcf : ∀ p, ∃ b, cf p = Except.ok b) (hgr : ∀ p, ∃ r, gr p = Except.ok r) :
    ∃ out, rank_worker cf gr mk ds co rtf ms rru req ts = Except.ok out ∧
      ∀ h t fb rk rtv, (h, t) ∈ ts →
        passes_filters ds co ms req t = true →
        cf t.parsed = Except.ok fb → gr t.parsed = Except.ok rk →
        passes_trash rtf rru fb rk = true →
        mk h t.title t.parsed fb rk = Except.ok rtv →
        rtv ∈ out := by
  obtain ⟨out, hout, _, hins⟩ :=
    rank_fold_ok cf gr mk ds co rtf ms rru req ts [] hcf hgr
  exact ⟨out, hout, hins⟩

/-- A `Torrent(...)` constructor oracle that raises on info hash `hA` only. -/
def mkFailA : String → String → Parsed → Bool → Int → Except String RankedTorrent :=
  fun h t _ fb rk =>
    if h = "hA" then Except.error "validation"
    else Except.ok { infohash := h, raw_title := t, fetch := fb, rank := rk }

/-- Witness for the C2 amended theorem: with total scoring oracles and a
constructor failing on candidate A only, the pass returns `ok` and
candidate B is in the result. -/
theorem c2_torrent_construction_failure_isolated_witness :
    ∃ out, rank_worker (fun _ => Except.ok true) grFive mkFailA "realdebrid"
        false false 0 0 [] [("hA", torrentA), ("hB", torrentB)] = Except.ok out ∧
      ∀ h t fb rk rtv, (h, t) ∈ [("hA", torrentA), ("hB", torrentB)] →
        passes_filters "realdebrid" false 0 [] t = true →
        (fun (_ : Parsed) => Except.ok (ε := String) true) t.parsed = Except.ok fb →
        grFive t.parsed = Except.ok rk →
        passes_trash false 0 fb rk = true →
        mkFailA h t.title t.parsed fb rk = Except.ok rtv →
        rtv ∈ out :=
  c2_torrent_construction_failure_isolated (fun _ => Except.ok true) grFive mkFailA
    "realdebrid" false false 0 0 [] [("hA", torrentA), ("hB", torrentB)]
    (fun _ => ⟨true, rfl⟩) (fun _ => ⟨5, rfl⟩)

/-- One element of the incoming JSON `debridConfigs` list as
`normalize_debrid_config` sees it: a dict / `DebridConfig` carrying
`service` and `apiKey` (both isinstance branches produce the same
normalized dict), or any other value, which is dropped. -/
inductive RawEntry where
  | entry (service apiKey : String)
  | other
  deriving DecidableEq, Repr

/-- The decoded JSON config fields that `normalize_debrid_config` and
`config_check` read; `none` embeds an absent key (`config.get` default). -/
structure RawConfig where
  debridConfigs : Option (List RawEntry)
  debridService : Option String
  debridApiKey : Option String
  debridStreamProxyPassword : String
  deriving DecidableEq, Repr

/-- A validated debrid service entry (`comet.core.models.DebridConfig`). -/
structure DebridConfig where
  service : String
  apiKey : String
  deriving DecidableEq, Repr

/-- The validated config fields relevant to the debrid configuration. -/
structure Config where
  debridConfigs : List DebridConfig
  debridService : String
  debridApiKey : String
  debridStreamProxyPassword : String
  deriving DecidableEq, Repr

/-- The `settings.PROXY_DEBRID_STREAM*` values read by `config_check`. -/
structure ProxySettings where
  proxy_debrid_stream : Bool
  proxy_password : String
  default_service : String
  default_apikey : String
  deriving DecidableEq, Repr

/-- The normalization pass over a raw `debridConfigs` list: dict or
`DebridConfig` entries are kept, anything else is dropped
(`config_validation.py` lines 20–25). -/
def normalizeEntries (l : List RawEntry) : List RawEntry :=
  l.filterMap fun e =>
    match e with
    | .entry s k => some (.entry s k)
    | .other => none

/-- Conversion of normalized entries to validated `DebridConfig` values. -/
def entriesToConfigs (l : List RawEntry) : List DebridConfig :=
  l.filterMap fun e =>
    match e with
    | .entry s k => some { service := s, apiKey := k }
    | .other => none

/-- `normalize_debrid_config` (`config_validation.py` lines 10–42): with a
non-empty `debridConfigs`, normalize its entries and mirror the first one
into the legacy fields; otherwise convert the legacy single-service fields
into `debridConfigs` — one entry when the legacy service is non-empty,
not "torrent", and has a non-empty key, else the empty list. -/
def normalize_debrid_config (c : RawConfig) : RawConfig :=
  let dcs := c.debridConfigs.getD []
  if dcs.length > 0 then
    let normalized := normalizeEntries dcs
    let c1 := { c with debridConfigs := some normalized }
    match normalized with
    | [] => c1
    | .entry s k :: _ => { c1 with debridService := some s, debridApiKey := some k }
    | .other :: _ => c1
  else
    let svc := c.debridService.getD "torrent"
    let key := c.debridApiKey.getD ""
    if svc ≠ "" ∧ svc ≠ "torrent" ∧ key ≠ "" then
      { c with debridConfigs := some [.entry svc key] }
    else
      { c with debridConfigs := some [] }

/-- Modelled from the spec: the pydantic `ConfigModel` validation and
`model_dump` live in `comet/core/models.py`, which is not under `src/`
(config parsing and validation are declared out of scope by the spec).
Validation is the oracle `validate` below; this conversion models a
successful `model_dump`, preserving the field values with the same
missing-key defaults ("torrent" service, empty API key, empty list) that
the callers in `playback.py` use. -/
def toValidated (c : RawConfig) : Config :=
  { debridConfigs := entriesToConfigs (c.debridConfigs.getD [])
    debridService := c.debridService.getD "torrent"
    debridApiKey := c.debridApiKey.getD ""
    debridStreamProxyPassword := c.debridStreamProxyPassword }

/-- The proxy-mode default block of `config_check`
(`config_validation.py` lines 84–110): in proxy mode with a matching
password, when there is no debrid config and no legacy key, the configured
proxy defaults are written into the legacy fields, and into
`debridConfigs` too when the default key is non-empty. -/
def proxyAdjust (st : ProxySettings) (vc : Config) : Config :=
  if st.proxy_debrid_stream = true ∧ st.proxy_password = vc.debridStreamProxyPassword then
    if vc.debridConfigs.length > 0 ∨ vc.debridApiKey ≠ "" then vc
    else
      let vc1 := { vc with
        debridService := st.default_service, debridApiKey := st.default_apikey }
      if st.default_apikey ≠ "" then
        { vc1 with debridConfigs :=
            [{ service := st.default_service, apiKey := st.default_apikey }] }
      else vc1
  else vc

/-- `config_check` (`config_validation.py` lines 45–114): `parsed` embeds
the outcome of base64 + orjson decoding (`none` = raised), and `validate`
the pydantic `ConfigModel` acceptance of the normalized config; any
failure returns `default_config`.  The `options` filtering and the
`rtnSettings`/`rtnRanking` attachment concern external RTN objects and
carry no debrid fields, so they are not modelled. -/
def config_check (validate : RawConfig → Bool) (st : ProxySettings)
    (default_config : Config) (parsed : Option RawConfig) : Config :=
  match parsed with
  | none => default_config
  | some raw =>
      let c := normalize_debrid_config raw
      if validate c then proxyAdjust st (toValidated c)
      else default_config

/-- The legacy fields mirror the first `debridConfigs` entry whenever that
list is non-empty. -/
def mirrors (c : Config) : Prop :=
  ∀ e es, c.debridConfigs = e :: es →
    c.debridService = e.service ∧ c.debridApiKey = e.apiKey

theorem normalizeEntries_all_entries (l : List RawEntry) :
    ∀ x ∈ normalizeEntries l, ∃ s k, x = RawEntry.entry s k := by
  intro x hx
  unfold normalizeEntries at hx
  obtain ⟨y, _, hy⟩ := List.mem_filterMap.mp hx
  cases y with
  | entry s k =>
    refine ⟨s, k, ?_⟩
    simpa using hy.symm
  | other => simp at hy

theorem toValidated_normalize_mirrors (raw : RawConfig) :
    mirrors (toValidated (normalize_debrid_config raw)) := by
  intro e es he
  unfold normalize_debrid_config at he ⊢
  by_cases hlen : (raw.debridConfigs.getD []).length > 0
  · cases hnorm : normalizeEntries (raw.debridConfigs.getD []) with
    | nil =>
      simp only [if_pos hlen, hnorm, toValidated] at he
      simp [entriesToConfigs] at he
    | cons hd tl =>
      cases hd with
      | entry s k =>
        simp only [if_pos hlen, hnorm, toValidated] at he ⊢
        simp only [entriesToConfigs, List.filterMap_cons] at he
        simp at he
        constructor
        · rw [← he.1]
          rfl
        · rw [← he.1]
          rfl
      | other =>
        obtain ⟨s, k, habs⟩ := normalizeEntries_all_entries _ _
          (hnorm ▸ List.mem_cons_self RawEntry.other tl)
        exact absurd habs (by simp)
  · by_cases hcond : (raw.debridService.getD "torrent") ≠ "" ∧
        (raw.debridService.getD "torrent") ≠ "torrent" ∧ (raw.debridApiKey.getD "") ≠ ""
    · simp only [if_neg hlen, if_pos hcond, toValidated] at he ⊢
      simp only [entriesToConfigs, Option.getD_some, List.filterMap_cons] at he
      simp at he
      constructor
      · rw [← he.1]
      · rw [← he.1]
    · simp only [if_neg hlen, if_neg hcond, toValidated] at he
      simp [entriesToConfigs] at he

theorem proxyAdjust_mirrors (st : ProxySettings) (vc : Config) (hm : mirrors vc) :
    mirrors (proxyAdjust st vc) := by
  intro e es he
  unfold proxyAdjust at he ⊢
  by_cases hp : st.proxy_debrid_stream = true ∧
      st.proxy_password = vc.debridStreamProxyPassword
  · by_cases hhas : vc.debridConfigs.length > 0 ∨ vc.debridApiKey ≠ ""
    · simp only [if_pos hp, if_pos hhas] at he ⊢
      exact hm e es he
    · by_cases hkey : st.default_apikey ≠ ""
      · simp only [if_pos hp, if_neg hhas, if_pos hkey] at he ⊢
        simp at he
        constructor
        · rw [← he.1]
        · rw [← he.1]
      · simp only [if_pos hp, if_neg hhas, if_neg hkey] at he ⊢
        push_neg at hhas
        have h0 : vc.debridConfigs = [] :=
          List.length_eq_zero.mp (Nat.le_zero.mp hhas.1)
        rw [h0] at he
        exact absurd he (by simp)
  · simp only [if_neg hp] at he ⊢
    exact hm e es he

theorem proxyAdjust_of_configs_nonempty (st : ProxySettings) (vc : Config)
    (h : vc.debridConfigs.length > 0) : proxyAdjust st vc = vc := by
  unfold proxyAdjust
  split
  · rw [if_pos (Or.inl h)]
  · rfl

/-- Proxy mode disabled. -/
def proxyOff : ProxySettings :=
  { proxy_debrid_stream := false, proxy_password := "",
    default_service := "realdebrid", default_apikey := "" }

/-- A recognizable stand-in for `models.default_config`. -/
def defaultCfgSample : Config :=
  { debridConfigs := [], debridService := "default-service",
    debridApiKey := "default-key", debridStreamProxyPassword := "" }

/-- A decoded config that validates but selects the direct-torrent mode:
legacy service "torrent", empty key, no `debridConfigs`. -/
def rawTorrentOnly : RawConfig :=
  { debridConfigs := none, debridService := some "torrent",
    debridApiKey := some "", debridStreamProxyPassword := "" }

/-- A decoded legacy single-service config: no `debridConfigs`, service
"realdebrid" with key "key1". -/
def rawLegacy : RawConfig :=
  { debridConfigs := none, debridService := some "realdebrid",
    debridApiKey := some "key1", debridStreamProxyPassword := "" }

/-- **C10** counterexample: the claim says every validating input yields a
config with `debridConfigs` populated and the legacy fields mirroring its
first entry.  A validating direct-torrent config (legacy service "torrent",
no `debridConfigs`) is returned with `debridConfigs = []` — not the default
config, not populated, and with no first entry to mirror. -/
theorem c10_counterexample_torrent_mode_empty_configs :
    config_check (fun _ => true) proxyOff defaultCfgSample (some rawTorrentOnly) =
      { debridConfigs := [], debridService := "torrent", debridApiKey := "",
        debridStreamProxyPassword := "" } := by
  rfl

/-- **C10** amended: `config_check` is total — a decode failure or a config
failing model validation yields the default config — and on the validated
path the `debridConfigs` key is always set, possibly to the empty list:
whenever it is non-empty, `debridService`/`debridApiKey` mirror its first
entry, and a legacy single-service config (empty `debridConfigs`, non-empty
non-"torrent" service with a non-empty key) is converted into exactly one
entry carrying those fields. -/
theorem c10_config_check_total_and_mirrors (validate : RawConfig → Bool)
    (st : ProxySettings) (dc : Config) (parsed : Option RawConfig) :
    (parsed = none → config_check validate st dc parsed = dc) ∧
    (∀ raw, parsed = some raw → validate (normalize_debrid_config raw) = false →
      config_check validate st dc parsed = dc) ∧
    (∀ raw, parsed = some raw → validate (normalize_debrid_config raw) = true →
      mirrors (config_check validate st dc parsed)) ∧
    (∀ raw s k, parsed = some raw → raw.debridConfigs.getD [] = [] →
      raw.debridService = some s → ¬s = "" → ¬s = "torrent" →
      raw.debridApiKey = some k → ¬k = "" →
      validate (normalize_debrid_config raw) = true →
      (config_check validate st dc parsed).debridConfigs =
        [{ service := s, apiKey := k }]) := by
  refine ⟨?_, ?_, ?_, ?_⟩
  · intro h
    subst h
    rfl
  · intro raw hp hv
    subst hp
    simp [config_check, hv]
  · intro raw hp hv
    subst hp
    simp only [config_check, hv, if_true]
    exact proxyAdjust_mirrors st _ (toValidated_normalize_mirrors raw)
  · intro raw s k hp hempty hsr hs1 hs2 hkr hk1 hv
    subst hp
    have hn : normalize_debrid_config raw =
        { raw with debridConfigs := some [RawEntry.entry s k] } := by
      unfold normalize_debrid_config
      rw [hempty, hsr, hkr]
      simp [hs1, hs2, hk1]
    have hnonempty : (toValidated (normalize_debrid_config raw)).debridConfigs =
        [{ service := s, apiKey := k }] := by
      rw [hn]
      rfl
    simp only [config_check, hv, if_true]
    rw [proxyAdjust_of_configs_nonempty st _ (by rw [hnonempty]; simp)]
    exact hnonempty

/-- Witness for the C10 amended theorem: a legacy realdebrid config with a
key is converted into one `debridConfigs` entry. -/
theorem c10_config_check_total_and_mirrors_witness :
    (config_check (fun _ => true) proxyOff defaultCfgSample
        (some rawLegacy)).debridConfigs =
      [{ service := "realdebrid", apiKey := "key1" }] :=
  (c10_config_check_total_and_mirrors (fun _ => true) proxyOff defaultCfgSample
      (some rawLegacy)).2.2.2 rawLegacy "realdebrid" "key1" rfl rfl rfl
    (by decide) (by decide) rfl (by decide) rfl
